import Mathlib

/-!
Verification of the `tailwind-canonical-classes` ESLint rule
(`src/lib/tailwind-canonical-classes.js`).

Shallow embedding conventions:
* JavaScript strings are modelled as `List Char` (abbreviated `Str`).
* The external design system (`@tailwindcss/node`) is an abstract structure
  whose `canonicalizeCandidates` field models the per-token call
  `designSystem.canonicalizeCandidates([className], { rem })[0]`; a thrown
  exception is modelled as `none`.
* Filesystem / path primitives (`fs`, `path`, `process.cwd`) are fields of an
  `Env` record; fallible operations return `Except JsError`.
* The module-level mutable variables (`designSystemCache`,
  `designSystemPromise`, `designSystemError`, `cssPathCache`) form a
  `CacheState` that is threaded explicitly through the functions that read or
  write them.
-/

set_option autoImplicit false

/-- JavaScript strings are modelled as lists of characters. -/
abbrev Str := List Char

/-- Embed a Lean string literal as a `Str`. -/
def str (s : String) : Str := s.data

/-- The backquote character, written numerically. -/
def backquote : Char := Char.ofNat 96

/-- Whitespace per the JavaScript regular-expression class `\s`
(also the set trimmed by `String.prototype.trim`). -/
def jsWhitespace (c : Char) : Bool :=
  c == ' ' || c == '\t' || c == '\n' || c == '\r' ||
  c.toNat == 0x0b || c.toNat == 0x0c || c.toNat == 0xa0 || c.toNat == 0x1680 ||
  (0x2000 <= c.toNat && c.toNat <= 0x200a) ||
  c.toNat == 0x2028 || c.toNat == 0x2029 || c.toNat == 0x202f ||
  c.toNat == 0x205f || c.toNat == 0x3000 || c.toNat == 0xfeff

/-- Model of `s.trim()` on a JavaScript string. -/
def trimJs (l : Str) : Str :=
  ((l.dropWhile jsWhitespace).reverse.dropWhile jsWhitespace).reverse

/-- Model of `s.split(/\s+/)`: splits at maximal runs of whitespace,
keeping the (possibly empty) fragments between runs, exactly as the
JavaScript `split` with a `\s+` regular expression does. -/
def splitWsGo (cur : Str) : Str → List Str
  | [] => [cur.reverse]
  | c :: rest =>
    if jsWhitespace c then
      cur.reverse :: splitWsGo [] (rest.dropWhile jsWhitespace)
    else
      splitWsGo (c :: cur) rest
termination_by l => l.length
decreasing_by
  · have := (rest.dropWhile_suffix jsWhitespace).length_le
    simp; omega
  · simp

/-- Model of `classString.split(/\s+/)` as used in `extractClassNames`. -/
def splitWsRuns (l : Str) : List Str := splitWsGo [] l

/-- Model of `arr.join(' ')` on a list of strings. -/
def joinSpace : List Str → Str
  | [] => []
  | [x] => x
  | x :: rest => x ++ ' ' :: joinSpace rest

/-- The AST shapes the rule distinguishes for a `className` attribute value
(`Literal` with a string value, `Literal` with a non-string value,
`TemplateLiteral` with its cooked quasis and expression count,
`JSXExpressionContainer`, and everything else). -/
inductive ClassNameValue where
  | literalStr (value : Str)
  | literalOther
  | templateLiteral (quasis : List Str) (numExpressions : Nat)
  | jsxExprContainer (inner : ClassNameValue)
  | other

/-- Test for `classNameValue.type === 'TemplateLiteral'`. -/
def isTemplateLiteralNode : ClassNameValue → Bool
  | .templateLiteral _ _ => true
  | _ => false

/-- The type test on lines 226-232: the handler proceeds only for
`Literal`, `TemplateLiteral` and `JSXExpressionContainer` nodes. -/
def isHandledType : ClassNameValue → Bool
  | .literalStr _ => true
  | .literalOther => true
  | .templateLiteral _ _ => true
  | .jsxExprContainer _ => true
  | .other => false

/-- Model of `extractClassNames` (lines 126-160): string literals are whitespace-split;
template literals with interpolated expressions yield nothing; expression-free
template literals contribute their trimmed quasis joined by spaces;
expression containers recurse; anything else yields nothing. -/
def extractClassNames : ClassNameValue → List Str
  | .literalStr classString =>
    (splitWsRuns classString).filter (fun cls => (trimJs cls).length > 0)
  | .literalOther => []
  | .templateLiteral quasis numExpressions =>
    if numExpressions > 0 then []
    else
      let parts := (quasis.map (fun q => trimJs q)).filter (fun t => t ≠ [])
      let combined := joinSpace parts
      (splitWsRuns combined).filter (fun cls => (trimJs cls).length > 0)
  | .jsxExprContainer inner => extractClassNames inner
  | .other => []

/-- The unwrapping on lines 221-224: a `JSXExpressionContainer` value is
replaced by its expression before the type test. -/
def unwrapContainer : ClassNameValue → ClassNameValue
  | .jsxExprContainer e => e
  | v => v

/-- Errors thrown by external primitives, plus the rule's own
"CSS file not found" error constructed on lines 66. -/
inductive JsError where
  | cssNotFound (path : Str)
  | external (id : Nat)
deriving DecidableEq, Repr

/-- The external design-system handle returned by
`__unstable__loadDesignSystem`.  `canonicalizeCandidates` models
`ds.canonicalizeCandidates([className], { rem: rootFontSize })[0]`;
`none` models a thrown exception. -/
structure DesignSystem where
  canonicalizeCandidates : Str → Nat → Option Str

/-- The lint context: `context.getFilename()` and
`sourceCode.getText(node)`. -/
structure Context where
  filename : Str
  getText : ClassNameValue → Str

/-- External filesystem and path primitives.  Operations that can throw in
JavaScript return `Except JsError`; `loadDesignSystemStart` is the
synchronous act of calling `__unstable__loadDesignSystem`, which returns a
promise token (or throws synchronously). -/
structure Env where
  isAbsolute : Str → Bool
  dirname : Str → Str
  resolvePath : Str → Str → Str
  cwd : Str
  existsSync : Str → Except JsError Bool
  readFileSync : Str → Except JsError Str
  loadDesignSystemStart : Str → Str → Except JsError Nat

/-- The module-level mutable variables (lines 6-9). -/
structure CacheState where
  designSystemCache : Option DesignSystem
  designSystemPromise : Option Nat
  designSystemError : Option JsError
  cssPathCache : Option Str

/-- The initial module state: all four variables are `null`. -/
def initialCacheState : CacheState := ⟨none, none, none, none⟩

/-- Model of `resolveCssPath` (lines 11-39): empty/absent paths yield `null`;
absolute paths are returned as-is; otherwise the path is resolved against
the current file's directory if that exists, else against the working
directory (returned even when it does not exist). -/
def resolveCssPath (env : Env) (cssPath : Str) (ctx : Context) :
    Except JsError (Option Str) :=
  if cssPath = [] then .ok none
  else if env.isAbsolute cssPath then .ok (some cssPath)
  else do
    let fileDir := env.dirname ctx.filename
    let relativeToFile := env.resolvePath fileDir cssPath
    let ex1 ← env.existsSync relativeToFile
    if ex1 then pure (some relativeToFile)
    else do
      let relativeToCwd := env.resolvePath env.cwd cssPath
      let ex2 ← env.existsSync relativeToCwd
      if ex2 then pure (some relativeToCwd)
      else pure (some relativeToCwd)

/-- The cache-reset step at the top of both lookup functions
(lines 42-48 and 94-100): all four variables are cleared and re-keyed
when the raw `cssPath` differs from `cssPathCache`. -/
def resetIfPathChanged (cssPath : Str) (st : CacheState) : CacheState :=
  if st.cssPathCache ≠ some cssPath then
    { designSystemCache := none, designSystemPromise := none,
      designSystemError := none, cssPathCache := some cssPath }
  else st

/-- The `try` block of `getDesignSystemSync` (lines 63-87): resolve the
path, check existence, read the stylesheet and start the asynchronous
load, recording a `cssNotFound` error when the file is missing.  A thrown
error propagates as `.error` (to be caught by the enclosing `catch`). -/
def getDesignSystemSyncTry (env : Env) (ctx : Context) (cssPath : Str)
    (st : CacheState) : Except JsError (Option DesignSystem × CacheState) := do
  let resolvedPath ← resolveCssPath env cssPath ctx
  match resolvedPath with
  | none =>
    pure (none, { st with designSystemError := some (.cssNotFound cssPath) })
  | some rp => do
    let ex ← env.existsSync rp
    if !ex then
      pure (none, { st with designSystemError := some (.cssNotFound cssPath) })
    else do
      let cssContent ← env.readFileSync rp
      let basePath := env.dirname rp
      let p ← env.loadDesignSystemStart cssContent basePath
      pure (none, { st with designSystemPromise := some p })

/-- Model of `getDesignSystemSync` (lines 41-91): reset the cache on a raw-path
change, return the cached handle if loaded, `null` if a terminal error is
recorded or a load is pending, and otherwise run the guarded load-start,
catching any thrown error into `designSystemError`. -/
def getDesignSystemSync (env : Env) (ctx : Context) (cssPath : Str)
    (st : CacheState) : Option DesignSystem × CacheState :=
  let st := resetIfPathChanged cssPath st
  match st.designSystemCache with
  | some ds => (some ds, st)
  | none =>
    if st.designSystemError.isSome then (none, st)
    else if st.designSystemPromise.isSome then (none, st)
    else
      match getDesignSystemSyncTry env ctx cssPath st with
      | .ok out => out
      | .error e => (none, { st with designSystemError := some e })

/-- The `.then` handler installed on the load promise (lines 76-79):
a fulfilled load stores the handle in `designSystemCache`. -/
def settlePromiseFulfilled (ds : DesignSystem) (st : CacheState) : CacheState :=
  { st with designSystemCache := some ds }

/-- The `.catch` handler installed on the load promise (lines 80-83):
a rejected load stores the error in `designSystemError`. -/
def settlePromiseRejected (e : JsError) (st : CacheState) : CacheState :=
  { st with designSystemError := some e }

/-- The synchronous segment of `getDesignSystemAsync` (lines 93-112), i.e.
everything the fire-and-forget call on line 242 executes before its first
`await`: reset on path change, return early on a cached handle or error,
and otherwise start a load via `getDesignSystemSync` when no promise
exists yet. -/
def getDesignSystemAsyncStart (env : Env) (ctx : Context) (cssPath : Str)
    (st : CacheState) : CacheState :=
  let st := resetIfPathChanged cssPath st
  if st.designSystemCache.isSome then st
  else if st.designSystemError.isSome then st
  else if st.designSystemPromise.isNone then
    (getDesignSystemSync env ctx cssPath st).2
  else st

/-- One entry of the `issues` array built on lines 280-284. -/
structure Issue where
  original : Str
  canonical : Str
  index : Nat
deriving DecidableEq, Repr

/-- One `context.report` call made by `processClasses`.  `hasFixer` records
whether a `fix` function was attached; `fixResult` is what that fixer
returns (`some` replacement text, or `none` for the `return null` case). -/
structure Report where
  original : Str
  canonical : Str
  hasFixer : Bool
  fixResult : Option Str
deriving DecidableEq, Repr

/-- The issue-collection loop of `processClasses` (lines 271-289): each
token is canonicalized inside a `try`; a throw (`none`) skips the token
via `continue`; a changed spelling is recorded with its token index. -/
def collectIssues (ds : DesignSystem) (rootFontSize : Nat) :
    Nat → List Str → List Issue
  | _, [] => []
  | i, className :: rest =>
    match ds.canonicalizeCandidates className rootFontSize with
    | none => collectIssues ds rootFontSize (i + 1) rest
    | some canonicalized =>
      if canonicalized ≠ className then
        ⟨className, canonicalized, i⟩ :: collectIssues ds rootFontSize (i + 1) rest
      else
        collectIssues ds rootFontSize (i + 1) rest

/-- Model of `Map.prototype.set`: overwrite the binding if the key is present,
otherwise append it. -/
def mapSet (m : List (Str × Str)) (k v : Str) : List (Str × Str) :=
  match m with
  | [] => [(k, v)]
  | (k', v') :: rest => if k' = k then (k, v) :: rest else (k', v') :: mapSet rest k v

/-- Model of `Map.prototype.get` (`none` models `undefined`). -/
def mapGet (m : List (Str × Str)) (k : Str) : Option Str :=
  match m with
  | [] => none
  | (k', v') :: rest => if k' = k then some v' else mapGet rest k

/-- The `canonicalMap` built on lines 294-297. -/
def buildCanonicalMap (issues : List Issue) : List (Str × Str) :=
  issues.foldl (fun m iss => mapSet m iss.original iss.canonical) []

/-- The substituted token list of lines 299-301:
`classNames.map((c) => canonicalMap.get(c) || c)`.  An absent key and a
falsy (empty) canonical string both fall back to the original token. -/
def fixedClassNamesOf (ds : DesignSystem) (rootFontSize : Nat)
    (classNames : List Str) : List Str :=
  let canonicalMap := buildCanonicalMap (collectIssues ds rootFontSize 0 classNames)
  classNames.map (fun className =>
    match mapGet canonicalMap className with
    | some v => if v = [] then className else v
    | none => className)

/-- Test for a double quote, single quote or backquote character. -/
def isQuoteChar (c : Char) : Bool :=
  c == '"' || c == '\'' || c == backquote

/-- A JavaScript line terminator, which `.` in a regular expression does
not match. -/
def isJsLineTerminator (c : Char) : Bool :=
  c == '\n' || c == '\r' || c.toNat == 0x2028 || c.toNat == 0x2029

/-- The anchored match `originalText.match(/^(["'`])(.*)\1$/)` on line 306:
succeeds (returning the captured quote) when the text starts and ends with
the same quote character, has length at least two, and its interior
contains no line terminator. -/
def quoteMatchDelim (t : Str) : Option Char :=
  match t with
  | [] => none
  | c :: rest =>
    if isQuoteChar c && rest.getLast? == some c &&
        rest.dropLast.all (fun x => !isJsLineTerminator x) then
      some c
    else none

/-- Index of the first occurrence of `c`, or the list's length if absent. -/
def firstIndexOf (c : Char) : Str → Nat
  | [] => 0
  | x :: rest => if x == c then 0 else firstIndexOf c rest + 1

/-- Model of `originalText.lastIndexOf(quote)` on line 316 (`-1` when absent). -/
def lastIndexOfChar (l : Str) (c : Char) : Int :=
  (l.length : Int) - 1 - (firstIndexOf c l.reverse : Int)

/-- The reassembly of lines 304-325: reuse the matched delimiter; fall back
to backquotes for a template literal; otherwise reuse a leading quote when
it also occurs later in the text, and emit the bare class string when no
quoting can be recovered. -/
def computeFixedText (originalText : Str) (isTL : Bool)
    (fixedClassString : Str) : Str :=
  match quoteMatchDelim originalText with
  | some q => q :: (fixedClassString ++ [q])
  | none =>
    if isTL then backquote :: (fixedClassString ++ [backquote])
    else
      match originalText with
      | c :: _ =>
        if isQuoteChar c then
          if lastIndexOfChar originalText c > 0 then
            c :: (fixedClassString ++ [c])
          else fixedClassString
        else fixedClassString
      | [] => fixedClassString

/-- Model of `processClasses` (lines 261-353) as the list of `context.report` calls
it makes, in order.  With a non-empty issue list, the first report carries
the fixer (which replaces the whole attribute value, or returns `null`
when the rewritten text equals the original); the remaining reports carry
no fixer. -/
def processClasses (ds : DesignSystem) (classNames : List Str)
    (classNameValue : ClassNameValue) (ctx : Context)
    (rootFontSize : Nat) : List Report :=
  match collectIssues ds rootFontSize 0 classNames with
  | [] => []
  | first :: rest =>
    let originalText := ctx.getText classNameValue
    let fixedClassString := joinSpace (fixedClassNamesOf ds rootFontSize classNames)
    let fixedText :=
      computeFixedText originalText (isTemplateLiteralNode classNameValue) fixedClassString
    let firstFix : Option Str := if fixedText ≠ originalText then some fixedText else none
    ⟨first.original, first.canonical, true, firstFix⟩ ::
      rest.map (fun iss => ⟨iss.original, iss.canonical, false, none⟩)

/-- The report emitted by `create` when `cssPath` is missing
(lines 201-207). -/
structure ConfigReport where
  line : Nat
  column : Nat
  messageId : Str
  dataPath : Str
deriving DecidableEq, Repr

/-- The rule's options object (`context.options[0]`). -/
structure RuleOptions where
  cssPath : Option Str := none
  rootFontSize : Option Nat := none

/-- Model of `create` (lines 195-258): a falsy `cssPath` (absent or empty) yields a
single configuration report and no visitors (`return {}`); otherwise the
`JSXAttribute` visitor is installed with the raw `cssPath` and the
defaulted `rootFontSize` (`options.rootFontSize || 16`). -/
def create (options : List RuleOptions) : List ConfigReport × Option (Str × Nat) :=
  let opts := options.head?.getD {}
  let rootFontSize :=
    match opts.rootFontSize with
    | some n => if n = 0 then 16 else n
    | none => 16
  match opts.cssPath with
  | none => ([⟨1, 0, str "cssNotFound", str "not specified"⟩], none)
  | some p =>
    if p = [] then ([⟨1, 0, str "cssNotFound", str "not specified"⟩], none)
    else ([], some (p, rootFontSize))

/-- A `JSXAttribute` node: its name and optional value. -/
structure JSXAttributeNode where
  attrName : Str
  value : Option ClassNameValue

/-- The `JSXAttribute` visitor (lines 211-256): ignore non-`className`
attributes and absent values, unwrap one expression container, bail out on
unhandled node types and empty token lists, and otherwise consult the
synchronous cache — kicking off the asynchronous load and reporting
nothing when no handle is available, or running `processClasses` when one
is. -/
def handleJSXAttribute (env : Env) (ctx : Context) (cssPath : Str)
    (rootFontSize : Nat) (node : JSXAttributeNode) (st : CacheState) :
    List Report × CacheState :=
  if node.attrName ≠ str "className" then ([], st)
  else
    match node.value with
    | none => ([], st)
    | some value =>
      let classNameValue := unwrapContainer value
      if !isHandledType classNameValue then ([], st)
      else
        let classNames := extractClassNames classNameValue
        if classNames.isEmpty then ([], st)
        else
          match getDesignSystemSync env ctx cssPath st with
          | (none, st1) => ([], getDesignSystemAsyncStart env ctx cssPath st1)
          | (some ds, st1) =>
            (processClasses ds classNames classNameValue ctx rootFontSize, st1)

/-- Concrete design system used to exercise the theorems: `p-4px`
canonicalizes to `p-1`, `boom` throws, everything else is already
canonical. -/
def dsFix : DesignSystem :=
  ⟨fun c _ =>
    if c = str "boom" then none
    else if c = str "p-4px" then some (str "p-1")
    else some c⟩

/-- Concrete lint context whose source text for any node is `"p-4px ok"`
(double-quoted). -/
def ctxFix : Context :=
  ⟨str "/proj/src/App.jsx", fun _ => str "\"p-4px ok\""⟩

/-- Environment that resolves relative paths under `/a` and succeeds. -/
def envRelA : Env :=
  { isAbsolute := fun _ => false
    dirname := fun _ => str "/a"
    resolvePath := fun d p => d ++ '/' :: p
    cwd := str "/a"
    existsSync := fun _ => .ok true
    readFileSync := fun _ => .ok (str "@import tw")
    loadDesignSystemStart := fun _ _ => .ok 0 }

/-- Environment identical to `envRelA` except relative paths resolve
under `/b`. -/
def envRelB : Env :=
  { isAbsolute := fun _ => false
    dirname := fun _ => str "/b"
    resolvePath := fun d p => d ++ '/' :: p
    cwd := str "/b"
    existsSync := fun _ => .ok true
    readFileSync := fun _ => .ok (str "@import tw")
    loadDesignSystemStart := fun _ _ => .ok 0 }

/-- Environment whose `readFileSync` throws. -/
def envErr : Env :=
  { isAbsolute := fun _ => true
    dirname := fun _ => str "/"
    resolvePath := fun d p => d ++ '/' :: p
    cwd := str "/"
    existsSync := fun _ => .ok true
    readFileSync := fun _ => .error (.external 7)
    loadDesignSystemStart := fun _ _ => .ok 0 }

/-- A loaded cache keyed on the raw path `t.css`. -/
def stLoadedFix : CacheState := ⟨some dsFix, some 0, none, some (str "t.css")⟩

/-- A cache holding a terminal error, keyed on `t.css`. -/
def stErrFix : CacheState := ⟨none, none, some (.external 3), some (str "t.css")⟩

/-- A cache with a load in flight, keyed on `t.css`. -/
def stPendingFix : CacheState := ⟨none, some 5, none, some (str "t.css")⟩

/-- An unloaded cache keyed on `/x.css`. -/
def stKeyedFix : CacheState := ⟨none, none, none, some (str "/x.css")⟩

/-- An unloaded cache keyed on a different raw path `u.css`. -/
def stOtherFix : CacheState := ⟨none, none, none, some (str "u.css")⟩

/-- A `className` attribute node with a plain string literal value. -/
def nodeFix : JSXAttributeNode :=
  ⟨str "className", some (.literalStr (str "p-4px"))⟩

/-- Token list containing a throwing token between two canonicalizable
ones. -/
def witListFix : List Str := [str "p-4px", str "boom", str "p-4px"]

/-- Token list with one non-canonical and one canonical token. -/
def witList2Fix : List Str := [str "p-4px", str "ok"]

theorem getDesignSystemSync_of_error {env : Env} {ctx : Context} {cssPath : Str}
    {st : CacheState} {e : JsError}
    (hpath : st.cssPathCache = some cssPath)
    (hcache : st.designSystemCache = none)
    (herr : st.designSystemError = some e) :
    getDesignSystemSync env ctx cssPath st = (none, st) := by
  simp [getDesignSystemSync, resetIfPathChanged, hpath, hcache, herr]

theorem getDesignSystemAsyncStart_of_error {env : Env} {ctx : Context}
    {cssPath : Str} {st : CacheState} {e : JsError}
    (hpath : st.cssPathCache = some cssPath)
    (hcache : st.designSystemCache = none)
    (herr : st.designSystemError = some e) :
    getDesignSystemAsyncStart env ctx cssPath st = st := by
  simp [getDesignSystemAsyncStart, resetIfPathChanged, hpath, hcache, herr]

/-- Claim C1: A `className` attribute whose value is a template literal with at
least one interpolated expression yields no extracted tokens, and the
`JSXAttribute` handler returns no report and no fix (and leaves the cache
untouched), whether the template literal appears inside an expression
container or directly. -/
theorem claim_C1_dynamic_template_untouched (quasis : List Str) (n : Nat)
    (env : Env) (ctx : Context) (cssPath : Str) (rfs : Nat) (st : CacheState) :
    extractClassNames (.templateLiteral quasis (n + 1)) = [] ∧
    handleJSXAttribute env ctx cssPath rfs
      ⟨str "className", some (.jsxExprContainer (.templateLiteral quasis (n + 1)))⟩ st
      = ([], st) ∧
    handleJSXAttribute env ctx cssPath rfs
      ⟨str "className", some (.templateLiteral quasis (n + 1))⟩ st = ([], st) := by
  refine ⟨by simp [extractClassNames], ?_, ?_⟩ <;>
    simp [handleJSXAttribute, unwrapContainer, isHandledType, extractClassNames]

/-- Claim C4: When `cssPath` is absent (or empty, which is equally falsy in
the source), `create` reports exactly one configuration error and installs
no visitors. -/
theorem claim_C4_missing_cssPath (options : List RuleOptions)
    (hfalsy : (options.head?.getD {}).cssPath = none ∨
      (options.head?.getD {}).cssPath = some []) :
    create options = ([⟨1, 0, str "cssNotFound", str "not specified"⟩], none) := by
  rcases hfalsy with h | h <;> simp [create, h]

/-- Witness for C4 at the empty options list. -/
theorem claim_C4_missing_cssPath_witness :
    create [] = ([⟨1, 0, str "cssNotFound", str "not specified"⟩], none) :=
  claim_C4_missing_cssPath [] (Or.inl rfl)

/-- Claim C5: With a terminal load failure cached for the current raw
`cssPath`, the synchronous lookup returns `null` with the state unchanged,
and the attribute handler produces no report and no fix for any node
(the state reached by `settlePromiseRejected` after a failed load is
exactly such a state). -/
theorem claim_C5_terminal_failure (env : Env) (ctx : Context) (cssPath : Str)
    (rfs : Nat) (st : CacheState) (e : JsError)
    (hpath : st.cssPathCache = some cssPath)
    (hcache : st.designSystemCache = none)
    (herr : st.designSystemError = some e) :
    getDesignSystemSync env ctx cssPath st = (none, st) ∧
    ∀ node, handleJSXAttribute env ctx cssPath rfs node st = ([], st) := by
  have hsync : getDesignSystemSync env ctx cssPath st = (none, st) :=
    getDesignSystemSync_of_error hpath hcache herr
  have hasync : getDesignSystemAsyncStart env ctx cssPath st = st :=
    getDesignSystemAsyncStart_of_error hpath hcache herr
  refine ⟨hsync, ?_⟩
  intro node
  obtain ⟨name, value⟩ := node
  cases value with
  | none => simp [handleJSXAttribute]
  | some v => simp [handleJSXAttribute, hsync, hasync]

/-- Witness for C5 at a concrete failed state and literal node. -/
theorem claim_C5_terminal_failure_witness :
    getDesignSystemSync envRelA ctxFix (str "t.css") stErrFix = (none, stErrFix) ∧
    handleJSXAttribute envRelA ctxFix (str "t.css") 16 nodeFix stErrFix
      = ([], stErrFix) :=
  ⟨(claim_C5_terminal_failure envRelA ctxFix (str "t.css") 16 stErrFix
      (.external 3) rfl rfl rfl).1,
   (claim_C5_terminal_failure envRelA ctxFix (str "t.css") 16 stErrFix
      (.external 3) rfl rfl rfl).2 nodeFix⟩

/-- Claim C8: While a load is in flight for the current raw `cssPath` (promise
present, no handle, no error), the synchronous lookup returns `null` and
leaves the state untouched — for every environment, i.e. without invoking
any filesystem or loader primitive. -/
theorem claim_C8_pending_returns_null (env : Env) (ctx : Context)
    (cssPath : Str) (st : CacheState) (p : Nat)
    (hpath : st.cssPathCache = some cssPath)
    (hprom : st.designSystemPromise = some p)
    (hcache : st.designSystemCache = none)
    (herr : st.designSystemError = none) :
    getDesignSystemSync env ctx cssPath st = (none, st) := by
  simp [getDesignSystemSync, resetIfPathChanged, hpath, hcache, herr, hprom]

/-- Witness for C8 at a concrete pending state. -/
theorem claim_C8_pending_returns_null_witness :
    getDesignSystemSync envRelA ctxFix (str "t.css") stPendingFix
      = (none, stPendingFix) :=
  claim_C8_pending_returns_null envRelA ctxFix (str "t.css") stPendingFix 5
    rfl rfl rfl rfl

/-- Claim C9: Any error thrown inside the guarded load-start (path
resolution, existence check, stylesheet read, or starting the load) is
caught: the function stores it in `designSystemError` and returns `null`
instead of propagating it.  (The embedding makes non-propagation
structural: `getDesignSystemSync` is `Except`-free, and this theorem pins
down what the `catch` does with a thrown error.) -/
theorem claim_C9_errors_captured (env : Env) (ctx : Context) (cssPath : Str)
    (st : CacheState) (e : JsError)
    (hpath : st.cssPathCache = some cssPath)
    (hcache : st.designSystemCache = none)
    (herr : st.designSystemError = none)
    (hprom : st.designSystemPromise = none)
    (htry : getDesignSystemSyncTry env ctx cssPath st = .error e) :
    getDesignSystemSync env ctx cssPath st
      = (none, { st with designSystemError := some e }) := by
  simp [getDesignSystemSync, resetIfPathChanged, hpath, hcache, herr, hprom, htry]

/-- Witness for C9: a concrete environment whose `readFileSync` throws. -/
theorem claim_C9_errors_captured_witness :
    getDesignSystemSyncTry envErr ctxFix (str "/x.css") stKeyedFix
      = .error (.external 7) ∧
    getDesignSystemSync envErr ctxFix (str "/x.css") stKeyedFix
      = (none, { stKeyedFix with designSystemError := some (.external 7) }) :=
  ⟨rfl, claim_C9_errors_captured envErr ctxFix (str "/x.css") stKeyedFix
    (.external 7) rfl rfl rfl rfl rfl⟩

/-- Claim C7 counterexample: The cache is *not* keyed by the resolved
stylesheet path: with the same raw `cssPath` option (`t.css`), the
resolution environment changes so that the stylesheet resolves to
`/b/t.css` instead of the `/a/t.css` it was loaded from, yet the lookup
returns the previously cached handle and leaves the cache intact instead
of invalidating it. -/
theorem claim_C7_counterexample :
    resolveCssPath envRelA (str "t.css") ctxFix = .ok (some (str "/a/t.css")) ∧
    resolveCssPath envRelB (str "t.css") ctxFix = .ok (some (str "/b/t.css")) ∧
    str "/a/t.css" ≠ str "/b/t.css" ∧
    getDesignSystemSync envRelB ctxFix (str "t.css") stLoadedFix
      = (some dsFix, stLoadedFix) := by
  refine ⟨rfl, rfl, by decide, rfl⟩

/-- Claim C7 as amended: The memoized design-system state is keyed by the
*raw* `cssPath` option string: the whole cache (handle, pending promise
and recorded error) is discarded exactly when the raw `cssPath` differs
from `cssPathCache` — the lookup then behaves as from the pristine module
state — and a cached handle is reused whenever the raw `cssPath` is
unchanged. -/
theorem claim_C7_amended_raw_path_key (env : Env) (ctx : Context)
    (cssPath : Str) (st : CacheState) :
    (st.cssPathCache ≠ some cssPath →
      getDesignSystemSync env ctx cssPath st
        = getDesignSystemSync env ctx cssPath initialCacheState) ∧
    (st.cssPathCache = some cssPath → ∀ ds, st.designSystemCache = some ds →
      getDesignSystemSync env ctx cssPath st = (some ds, st)) := by
  constructor
  · intro hne
    have h1 : resetIfPathChanged cssPath st
        = ⟨none, none, none, some cssPath⟩ := by
      simp [resetIfPathChanged, hne]
    have h2 : resetIfPathChanged cssPath initialCacheState
        = ⟨none, none, none, some cssPath⟩ := by
      simp [resetIfPathChanged, initialCacheState]
    unfold getDesignSystemSync
    rw [h1, h2]
  · intro hpath ds hds
    simp [getDesignSystemSync, resetIfPathChanged, hpath, hds]

/-- Witness for the amended C7: a changed raw path behaves like the
pristine state, and an unchanged raw path returns the cached handle. -/
theorem claim_C7_amended_raw_path_key_witness :
    getDesignSystemSync envRelA ctxFix (str "t.css") stOtherFix
      = getDesignSystemSync envRelA ctxFix (str "t.css") initialCacheState ∧
    getDesignSystemSync envRelA ctxFix (str "t.css") stLoadedFix
      = (some dsFix, stLoadedFix) :=
  ⟨(claim_C7_amended_raw_path_key envRelA ctxFix (str "t.css") stOtherFix).1
      (by decide),
   (claim_C7_amended_raw_path_key envRelA ctxFix (str "t.css") stLoadedFix).2
      rfl dsFix rfl⟩

theorem mem_collectIssues_iff (ds : DesignSystem) (rfs : Nat) :
    ∀ (l : List Str) (i0 : Nat) (iss : Issue),
      iss ∈ collectIssues ds rfs i0 l ↔
      ∃ k orig, l[k]? = some orig ∧ iss.index = i0 + k ∧ iss.original = orig ∧
        ds.canonicalizeCandidates orig rfs = some iss.canonical ∧
        iss.canonical ≠ orig := by
  intro l
  induction l with
  | nil => intro i0 iss; simp [collectIssues]
  | cons c rest ih =>
    intro i0 iss
    simp only [collectIssues]
    cases hc : ds.canonicalizeCandidates c rfs with
    | none =>
      rw [ih]
      constructor
      · rintro ⟨k, orig, hk, hi, ho, hcan, hne⟩
        exact ⟨k + 1, orig, by simpa using hk, by omega, ho, hcan, hne⟩
      · rintro ⟨k, orig, hk, hi, ho, hcan, hne⟩
        cases k with
        | zero =>
          simp only [List.getElem?_cons_zero, Option.some.injEq] at hk
          subst hk; subst ho
          rw [hc] at hcan; cases hcan
        | succ k' =>
          exact ⟨k', orig, by simpa using hk, by omega, ho, hcan, hne⟩
    | some cc =>
      by_cases hcc : cc ≠ c
      · simp only [if_pos hcc, List.mem_cons, ih]
        constructor
        · rintro (heq | ⟨k, orig, hk, hi, ho, hcan, hne⟩)
          · subst heq
            exact ⟨0, c, by simp, by simp, rfl, hc, hcc⟩
          · exact ⟨k + 1, orig, by simpa using hk, by omega, ho, hcan, hne⟩
        · rintro ⟨k, orig, hk, hi, ho, hcan, hne⟩
          cases k with
          | zero =>
            left
            simp only [List.getElem?_cons_zero, Option.some.injEq] at hk
            subst hk; subst ho
            rw [hc] at hcan
            cases iss with
            | mk o cn i =>
              simp only at hi ⊢
              injection hcan with hcan'
              simp_all
          | succ k' =>
            right
            exact ⟨k', orig, by simpa using hk, by omega, ho, hcan, hne⟩
      · push_neg at hcc
        subst hcc
        simp only [ne_eq, not_true_eq_false, if_false]
        rw [ih]
        constructor
        · rintro ⟨k, orig, hk, hi, ho, hcan, hne⟩
          exact ⟨k + 1, orig, by simpa using hk, by omega, ho, hcan, hne⟩
        · rintro ⟨k, orig, hk, hi, ho, hcan, hne⟩
          cases k with
          | zero =>
            simp only [List.getElem?_cons_zero, Option.some.injEq] at hk
            subst hk; subst ho
            rw [hc] at hcan
            injection hcan with hcan'
            exact absurd hcan'.symm hne
          | succ k' =>
            exact ⟨k', orig, by simpa using hk, by omega, ho, hcan, hne⟩

theorem collectIssues_sound {ds : DesignSystem} {rfs : Nat} {l : List Str}
    {i0 : Nat} {iss : Issue} (h : iss ∈ collectIssues ds rfs i0 l) :
    ds.canonicalizeCandidates iss.original rfs = some iss.canonical ∧
    iss.canonical ≠ iss.original := by
  obtain ⟨k, orig, _, _, ho, hcan, hne⟩ := (mem_collectIssues_iff ds rfs l i0 iss).1 h
  subst ho
  exact ⟨hcan, hne⟩

theorem mapGet_mapSet (m : List (Str × Str)) (k v k' : Str) :
    mapGet (mapSet m k v) k' = if k' = k then some v else mapGet m k' := by
  induction m with
  | nil =>
    simp only [mapSet, mapGet]
    by_cases h : k' = k
    · simp [h]
    · rw [if_neg (fun hh => h hh.symm), if_neg h]
  | cons hd tl ih =>
    obtain ⟨k0, v0⟩ := hd
    simp only [mapSet]
    by_cases hk0 : k0 = k
    · subst hk0
      simp only [if_pos rfl, mapGet]
      by_cases h : k' = k0
      · simp [h]
      · rw [if_neg (fun hh => h hh.symm), if_neg h, if_neg (fun hh => h hh.symm)]
    · simp only [if_neg hk0, mapGet, ih]
      by_cases h : k0 = k'
      · subst h
        rw [if_pos rfl, if_neg hk0, if_pos rfl]
      · rw [if_neg h, if_neg h]

theorem mapGet_foldl_set (issues : List Issue) :
    ∀ (m0 : List (Str × Str)) (k v : Str),
      mapGet (issues.foldl (fun m iss => mapSet m iss.original iss.canonical) m0) k
        = some v →
      (∃ iss ∈ issues, iss.original = k ∧ iss.canonical = v) ∨ mapGet m0 k = some v := by
  induction issues with
  | nil => intro m0 k v h; exact Or.inr h
  | cons a rest ih =>
    intro m0 k v h
    rcases ih (mapSet m0 a.original a.canonical) k v h with h1 | h2
    · obtain ⟨iss, hm, hp⟩ := h1
      exact Or.inl ⟨iss, List.mem_cons_of_mem _ hm, hp⟩
    · rw [mapGet_mapSet] at h2
      by_cases hk : k = a.original
      · subst hk
        rw [if_pos rfl] at h2
        exact Or.inl ⟨a, List.mem_cons_self _ _, rfl, by injection h2⟩
      · rw [if_neg hk] at h2
        exact Or.inr h2

theorem mapGet_buildCanonicalMap {ds : DesignSystem} {rfs : Nat}
    {classNames : List Str} {k v : Str}
    (h : mapGet (buildCanonicalMap (collectIssues ds rfs 0 classNames)) k = some v) :
    ds.canonicalizeCandidates k rfs = some v ∧ v ≠ k := by
  rcases mapGet_foldl_set (collectIssues ds rfs 0 classNames) [] k v h with h1 | h2
  · obtain ⟨iss, hm, ho, hc⟩ := h1
    have := collectIssues_sound hm
    rw [ho, hc] at this
    exact this
  · cases h2

/-- Claim C2: The substituted class list built for the auto-fix has the same
length as the extracted token list, and position by position each token is
either unchanged or exactly the canonical form the design system returns
for it — nothing is dropped, duplicated or reordered.  (`processClasses`
joins precisely this list with single spaces to form the rewritten
value.) -/
theorem claim_C2_tokens_preserved (ds : DesignSystem) (rfs : Nat)
    (classNames : List Str) :
    (fixedClassNamesOf ds rfs classNames).length = classNames.length ∧
    ∀ i, i < classNames.length →
      (fixedClassNamesOf ds rfs classNames)[i]? = classNames[i]? ∨
      ∃ orig, classNames[i]? = some orig ∧
        ds.canonicalizeCandidates orig rfs = (fixedClassNamesOf ds rfs classNames)[i]? := by
  refine ⟨by simp [fixedClassNamesOf], ?_⟩
  intro i hi
  have horig : classNames[i]? = some classNames[i] := List.getElem?_eq_getElem hi
  have hmap : (fixedClassNamesOf ds rfs classNames)[i]?
      = some (match mapGet (buildCanonicalMap (collectIssues ds rfs 0 classNames))
            classNames[i] with
        | some v => if v = [] then classNames[i] else v
        | none => classNames[i]) := by
    simp only [fixedClassNamesOf, List.getElem?_map, horig, Option.map_some']
  cases hget : mapGet (buildCanonicalMap (collectIssues ds rfs 0 classNames))
      classNames[i] with
  | none =>
    left
    rw [hmap, hget, horig]
  | some v =>
    by_cases hv : v = []
    · left
      rw [hmap, hget, horig]
      simp [hv]
    · right
      refine ⟨classNames[i], horig, ?_⟩
      rw [hmap, hget]
      simp only [if_neg hv]
      exact (mapGet_buildCanonicalMap hget).1

/-- Witness for C2 on a concrete token list with one rewrite. -/
theorem claim_C2_tokens_preserved_witness :
    0 < witList2Fix.length ∧
    ((fixedClassNamesOf dsFix 16 witList2Fix)[0]? = witList2Fix[0]? ∨
      ∃ orig, witList2Fix[0]? = some orig ∧
        dsFix.canonicalizeCandidates orig 16
          = (fixedClassNamesOf dsFix 16 witList2Fix)[0]?) :=
  ⟨by decide, (claim_C2_tokens_preserved dsFix 16 witList2Fix).2 0 (by decide)⟩

/-- Claim C6: If canonicalization throws on the token at position `i`, no
issue is recorded for position `i`, while every other position whose
canonical form differs still gets its issue recorded — tokens before and
after the failing one are unaffected. -/
theorem claim_C6_throw_skips_token_only (ds : DesignSystem) (rfs : Nat)
    (classNames : List Str) (i : Nat) (orig : Str)
    (hget : classNames[i]? = some orig)
    (hthrow : ds.canonicalizeCandidates orig rfs = none) :
    (∀ iss ∈ collectIssues ds rfs 0 classNames, iss.index ≠ i) ∧
    (∀ j orig2 c, j ≠ i → classNames[j]? = some orig2 →
      ds.canonicalizeCandidates orig2 rfs = some c → c ≠ orig2 →
      (⟨orig2, c, j⟩ : Issue) ∈ collectIssues ds rfs 0 classNames) := by
  constructor
  · intro iss hmem hidx
    obtain ⟨k, o, hk, hi, ho, hcan, hne⟩ :=
      (mem_collectIssues_iff ds rfs classNames 0 iss).1 hmem
    have hki : k = i := by omega
    subst hki
    rw [hget] at hk
    injection hk with hk'
    subst hk'
    rw [hthrow] at hcan
    cases hcan
  · intro j orig2 c hji hj hcan hne
    exact (mem_collectIssues_iff ds rfs classNames 0 ⟨orig2, c, j⟩).2
      ⟨j, orig2, hj, by simp, rfl, hcan, hne⟩

/-- Witness for C6: `boom` (position 1) throws; the surrounding `p-4px`
tokens at positions 0 and 2 are still rewritten. -/
theorem claim_C6_throw_skips_token_only_witness :
    witListFix[1]? = some (str "boom") ∧
    dsFix.canonicalizeCandidates (str "boom") 16 = none ∧
    ((∀ iss ∈ collectIssues dsFix 16 0 witListFix, iss.index ≠ 1) ∧
      (∀ j orig2 c, j ≠ 1 → witListFix[j]? = some orig2 →
        dsFix.canonicalizeCandidates orig2 16 = some c → c ≠ orig2 →
        (⟨orig2, c, j⟩ : Issue) ∈ collectIssues dsFix 16 0 witListFix)) :=
  ⟨rfl, rfl,
    claim_C6_throw_skips_token_only dsFix 16 witListFix 1 (str "boom") rfl rfl⟩

theorem collectIssues_index_ge (ds : DesignSystem) (rfs : Nat) :
    ∀ (l : List Str) (i0 : Nat), ∀ iss ∈ collectIssues ds rfs i0 l, i0 ≤ iss.index := by
  intro l i0 iss hmem
  obtain ⟨k, o, _, hi, _⟩ := (mem_collectIssues_iff ds rfs l i0 iss).1 hmem
  omega

theorem collectIssues_index_sorted (ds : DesignSystem) (rfs : Nat) :
    ∀ (l : List Str) (i0 : Nat),
      (collectIssues ds rfs i0 l).Pairwise (fun a b => a.index < b.index) := by
  intro l
  induction l with
  | nil => intro i0; simp [collectIssues]
  | cons c rest ih =>
    intro i0
    simp only [collectIssues]
    cases hc : ds.canonicalizeCandidates c rfs with
    | none => exact ih (i0 + 1)
    | some cc =>
      by_cases hcc : cc ≠ c
      · simp only [if_pos hcc]
        refine List.Pairwise.cons ?_ (ih (i0 + 1))
        intro iss hmem
        have := collectIssues_index_ge ds rfs rest (i0 + 1) iss hmem
        simp only
        omega
      · simp only [if_neg hcc]
        exact ih (i0 + 1)

/-- Claim C10: With `n ≥ 1` issues found (written `first :: rest`), exactly
`n` reports are emitted, matching the issues one-for-one in increasing
token-index order; only the first report carries a fixer; that fixer
replaces the whole attribute value with the reassembled substituted token
list, and returns `null` exactly when the rewritten text equals the
original text. -/
theorem claim_C10_report_fix_structure (ds : DesignSystem) (rfs : Nat)
    (classNames : List Str) (v : ClassNameValue) (ctx : Context)
    (first : Issue) (rest : List Issue)
    (hiss : collectIssues ds rfs 0 classNames = first :: rest) :
    (processClasses ds classNames v ctx rfs).length = (first :: rest).length ∧
    (∀ j : Nat, ((processClasses ds classNames v ctx rfs).map
        (fun r => (r.original, r.canonical)))[j]?
      = ((first :: rest).map (fun iss => (iss.original, iss.canonical)))[j]?) ∧
    (∀ (j : Nat) (r : Report),
      (processClasses ds classNames v ctx rfs)[j]? = some r → 0 < j →
      r.hasFixer = false ∧ r.fixResult = none) ∧
    (∀ r0, (processClasses ds classNames v ctx rfs)[0]? = some r0 →
      r0.hasFixer = true ∧
      r0.fixResult =
        (if computeFixedText (ctx.getText v) (isTemplateLiteralNode v)
            (joinSpace (fixedClassNamesOf ds rfs classNames)) ≠ ctx.getText v
          then some (computeFixedText (ctx.getText v) (isTemplateLiteralNode v)
            (joinSpace (fixedClassNamesOf ds rfs classNames)))
          else none)) ∧
    List.Pairwise (fun a b => a < b) ((first :: rest).map Issue.index) := by
  have hproc : processClasses ds classNames v ctx rfs
      = ⟨first.original, first.canonical, true,
          if computeFixedText (ctx.getText v) (isTemplateLiteralNode v)
              (joinSpace (fixedClassNamesOf ds rfs classNames)) ≠ ctx.getText v
            then some (computeFixedText (ctx.getText v) (isTemplateLiteralNode v)
              (joinSpace (fixedClassNamesOf ds rfs classNames)))
            else none⟩ ::
        rest.map (fun iss => ⟨iss.original, iss.canonical, false, none⟩) := by
    unfold processClasses
    rw [hiss]
  refine ⟨?_, ?_, ?_, ?_, ?_⟩
  · rw [hproc]; simp
  · intro j
    rw [hproc]
    cases j with
    | zero => simp
    | succ j' =>
      simp only [List.getElem?_cons_succ, List.map_map, List.getElem?_map]
      cases rest[j']? <;> rfl
  · intro j r hr hj
    rw [hproc] at hr
    cases j with
    | zero => omega
    | succ j' =>
      simp only [List.getElem?_cons_succ, List.getElem?_map] at hr
      cases hrest : rest[j']? with
      | none => rw [hrest] at hr; cases hr
      | some iss =>
        rw [hrest] at hr
        injection hr with hr'
        subst hr'
        exact ⟨rfl, rfl⟩
  · intro r0 hr0
    rw [hproc] at hr0
    simp only [List.getElem?_cons_zero] at hr0
    injection hr0 with hr0'
    subst hr0'
    exact ⟨rfl, rfl⟩
  · have := collectIssues_index_sorted ds rfs classNames 0
    rw [hiss] at this
    exact (List.pairwise_map).2 this

/-- Witness for C10 on a concrete attribute with one non-canonical token. -/
theorem claim_C10_report_fix_structure_witness :
    collectIssues dsFix 16 0 witList2Fix = [⟨str "p-4px", str "p-1", 0⟩] ∧
    (processClasses dsFix witList2Fix (.literalStr (str "p-4px ok")) ctxFix 16).length
      = 1 :=
  ⟨rfl, by
    have h := claim_C10_report_fix_structure dsFix 16 witList2Fix
      (.literalStr (str "p-4px ok")) ctxFix ⟨str "p-4px", str "p-1", 0⟩ [] rfl
    simpa using h.1⟩

theorem head_getLast_wrap (q : Char) (l : Str) :
    (q :: (l ++ [q])).head? = some q ∧ (q :: (l ++ [q])).getLast? = some q := by
  refine ⟨rfl, ?_⟩
  rw [show q :: (l ++ [q]) = (q :: l) ++ [q] from rfl]
  exact List.getLast?_concat _

theorem computeFixedText_keeps_delimiter (t : Str) (isTL : Bool) (fs : Str)
    (q : Char) (hq : isQuoteChar q = true)
    (hhead : t.head? = some q) (hlast : t.getLast? = some q)
    (hlen : 2 ≤ t.length) (htl : isTL = true → q = backquote) :
    (computeFixedText t isTL fs).head? = some q ∧
    (computeFixedText t isTL fs).getLast? = some q := by
  cases t with
  | nil => cases hhead
  | cons c rest =>
    have hc : c = q := by
      simp only [List.head?_cons, Option.some.injEq] at hhead
      exact hhead
    subst hc
    unfold computeFixedText
    cases hm : quoteMatchDelim (c :: rest) with
    | some q' =>
      have hq' : q' = c := by
        simp only [quoteMatchDelim] at hm
        by_cases hcond : (isQuoteChar c && rest.getLast? == some c &&
            rest.dropLast.all (fun x => !isJsLineTerminator x)) = true
        · rw [if_pos hcond] at hm
          injection hm with h
          exact h.symm
        · rw [if_neg hcond] at hm
          cases hm
      subst hq'
      exact head_getLast_wrap _ fs
    | none =>
      cases isTL with
      | true =>
        have hqc : c = backquote := htl rfl
        rw [hqc]
        exact head_getLast_wrap _ fs
      | false =>
        simp only [Bool.false_eq_true, if_false]
        rw [if_pos hq]
        have hrev : (c :: rest).reverse.head? = some c := by
          rw [List.head?_reverse]
          exact hlast
        have hlast' : lastIndexOfChar (c :: rest) c > 0 := by
          cases hrevc : (c :: rest).reverse with
          | nil =>
            have : (c :: rest).reverse.length = 0 := by rw [hrevc]; rfl
            simp at this
          | cons a tl =>
            rw [hrevc] at hrev
            simp only [List.head?_cons, Option.some.injEq] at hrev
            have hfi : firstIndexOf c (c :: rest).reverse = 0 := by
              rw [hrevc, hrev]
              simp [firstIndexOf]
            unfold lastIndexOfChar
            rw [hfi]
            simp only [List.length_cons] at hlen ⊢
            omega
        rw [if_pos hlast']
        exact head_getLast_wrap _ fs

/-- Claim C3: Whenever `processClasses` emits a fix and the attribute's
source text is delimited by a quote character (same quote at both ends,
length at least two; for a template-literal node that delimiter is the
backquote, as JavaScript syntax guarantees), the replacement text begins
and ends with that same quote character. -/
theorem claim_C3_fix_keeps_quote_style (ds : DesignSystem)
    (classNames : List Str) (v : ClassNameValue) (ctx : Context) (rfs : Nat)
    (q : Char) (r : Report) (ft : Str)
    (hq : isQuoteChar q = true)
    (hhead : (ctx.getText v).head? = some q)
    (hlast : (ctx.getText v).getLast? = some q)
    (hlen : 2 ≤ (ctx.getText v).length)
    (htl : isTemplateLiteralNode v = true → q = backquote)
    (hr : (processClasses ds classNames v ctx rfs).head? = some r)
    (hfix : r.fixResult = some ft) :
    ft.head? = some q ∧ ft.getLast? = some q := by
  cases hiss : collectIssues ds rfs 0 classNames with
  | nil =>
    have hproc : processClasses ds classNames v ctx rfs = [] := by
      unfold processClasses; rw [hiss]
    rw [hproc] at hr
    cases hr
  | cons first rest =>
    have hproc : processClasses ds classNames v ctx rfs
        = ⟨first.original, first.canonical, true,
            if computeFixedText (ctx.getText v) (isTemplateLiteralNode v)
                (joinSpace (fixedClassNamesOf ds rfs classNames)) ≠ ctx.getText v
              then some (computeFixedText (ctx.getText v) (isTemplateLiteralNode v)
                (joinSpace (fixedClassNamesOf ds rfs classNames)))
              else none⟩ ::
          rest.map (fun iss => ⟨iss.original, iss.canonical, false, none⟩) := by
      unfold processClasses
      rw [hiss]
    rw [hproc] at hr
    simp only [List.head?_cons, Option.some.injEq] at hr
    subst hr
    by_cases hne : computeFixedText (ctx.getText v) (isTemplateLiteralNode v)
        (joinSpace (fixedClassNamesOf ds rfs classNames)) ≠ ctx.getText v
    · simp only [if_pos hne, Option.some.injEq] at hfix
      subst hfix
      exact computeFixedText_keeps_delimiter (ctx.getText v)
        (isTemplateLiteralNode v) (joinSpace (fixedClassNamesOf ds rfs classNames))
        q hq hhead hlast hlen htl
    · simp only [if_neg hne] at hfix
      cases hfix

/-- Witness for C3 on a double-quoted literal attribute. -/
theorem claim_C3_fix_keeps_quote_style_witness :
    (processClasses dsFix witList2Fix (.literalStr (str "p-4px ok")) ctxFix 16).head?
      = some ⟨str "p-4px", str "p-1", true, some (str "\"p-1 ok\"")⟩ ∧
    (str "\"p-1 ok\"").head? = some '"' ∧ (str "\"p-1 ok\"").getLast? = some '"' :=
  ⟨rfl, by
    have h := claim_C3_fix_keeps_quote_style dsFix witList2Fix
      (.literalStr (str "p-4px ok")) ctxFix 16 '"'
      ⟨str "p-4px", str "p-1", true, some (str "\"p-1 ok\"")⟩ (str "\"p-1 ok\"")
      rfl rfl rfl (by decide) (by decide) rfl rfl
    exact h⟩
